import Mathlib

/-!
Shallow embedding of the DSEI exhibitor-directory crawl engine
(`src/dsei_scraper/async_scraper.py` and `src/dsei_scraper/scraper.py`),
together with theorems settling the frozen claims about its specification.

HTML documents are abstracted at the level BeautifulSoup delivers them to the
scraper: a listing page is the list of its container blocks (each with its
anchors and optional stand text), a detail page is the tuple of texts the four
configured selectors produce plus the hrefs of its anchors, all texts already
`get_text(strip=True)`-normalized.  Network effects are abstracted as oracles
(`Nat → FetchOutcome`, `String → Option DetailPage`); sleeps are logged as a
list of durations.  Python strings are modelled as Lean `String`.
-/

namespace DSEI

/-! ### Python string-operation models -/

/-- Python `s.lower()` (ASCII-adequate model). -/
def pyLower (s : String) : String := ⟨s.data.map Char.toLower⟩

/-- Python `s.strip()` (ASCII-adequate model): drop whitespace from both
ends. -/
def pyStrip (s : String) : String :=
  ⟨(((s.data.dropWhile Char.isWhitespace).reverse).dropWhile Char.isWhitespace).reverse⟩

/-- Python `s.startswith(pat)`. -/
def pyStartsWith (pat s : String) : Bool := pat.data.isPrefixOf s.data

/-- Core of Python `s.replace(old, new)`: replace every non-overlapping
occurrence of `pat` by `rep`, scanning left to right.  The fuel argument only
drives structural recursion; it is instantiated with the list length, which
the scan never exhausts (the list shrinks at every step). -/
def replaceList (pat rep : List Char) : Nat → List Char → List Char
  | _, [] => []
  | 0, l => l
  | fuel + 1, c :: rest =>
    if pat ≠ [] ∧ pat.isPrefixOf (c :: rest) = true then
      rep ++ replaceList pat rep fuel (rest.drop (pat.length - 1))
    else
      c :: replaceList pat rep fuel rest

/-- Python `s.replace(old, new)` on strings. -/
def pyReplace (s pat rep : String) : String :=
  ⟨replaceList pat.data rep.data s.data.length s.data⟩

/-- Python single-character `s.replace(old, new)` (equivalent to a character
map when `old` is one character). -/
def replaceChar (old new : Char) (s : String) : String :=
  ⟨s.data.map (fun c => if c = old then new else c)⟩

/-- Python substring membership `pat in s` on character lists. -/
def listContainsSub (pat : List Char) : List Char → Bool
  | [] => pat.isEmpty
  | c :: rest => pat.isPrefixOf (c :: rest) || listContainsSub pat rest

/-- Python substring membership `pat in s`. -/
def pyContains (pat s : String) : Bool := listContainsSub pat.data s.data

/-- The apostrophe character (U+0027), used by the slug-extraction pattern. -/
def quoteChar : Char := Char.ofNat 39

/-! ### Slug extraction: model of `re.search(r"'exhibitors-list/([^']+)'", href)`
(async_scraper.py line 320, scraper.py line 217) -/

/-- The literal head of the pattern: an apostrophe followed by
`exhibitors-list/`. -/
def slugPat : List Char := quoteChar :: ("exhibitors-list/").data

/-- Try to match the pattern at the head of `cs`: the literal `slugPat`, then a
non-empty greedy run of non-apostrophe characters, then a closing apostrophe.
Returns the captured group. -/
def slugMatchAt (cs : List Char) : Option String :=
  if slugPat.isPrefixOf cs = true then
    let rest := cs.drop slugPat.length
    let body := rest.takeWhile (fun c => c ≠ quoteChar)
    if body ≠ [] ∧ (rest.drop body.length).head? = some quoteChar then
      some ⟨body⟩
    else
      none
  else
    none

/-- `re.search` scans left to right, trying the pattern at every position. -/
def slugSearch : List Char → Option String
  | [] => none
  | c :: rest =>
    match slugMatchAt (c :: rest) with
    | some s => some s
    | none => slugSearch rest

/-- Extract the company slug from an anchor href, or `none` when the pattern
does not occur. -/
def findSlug (href : String) : Option String := slugSearch href.data

/-! ### Listing-page model and `get_company_slugs_from_page` -/

/-- An HTML anchor as the scrapers see it: its class list and href attribute. -/
structure Anchor where
  classes : List String
  href : String
deriving DecidableEq

/-- One `li.m-exhibitors-list__items__item` container of a listing page: the
anchors inside it (document order) and the stand div's stripped text when the
stand element is present. -/
structure ListingContainer where
  anchors : List Anchor
  standText : Option String
deriving DecidableEq

/-- The `slug`/`stand` pair the async listing parse produces per container. -/
structure CompanyInfo where
  slug : String
  stand : String
deriving DecidableEq

/-- Whether an anchor carries the `js-librarylink-entry` class. -/
def isLibraryLink (a : Anchor) : Bool := a.classes.contains ("js-librarylink-entry")

/-- Stand text handling (async_scraper.py lines 326-333): strip the
`Stand:` literal when present, else use the raw text; empty when absent. -/
def extractStand : Option String → String
  | none => ""
  | some t =>
    if pyStartsWith ("Stand:") t = true then pyStrip (pyReplace t ("Stand:") (""))
    else t

/-- Per-container extraction (async_scraper.py lines 312-338): the first
`js-librarylink-entry` anchor in the container, slug via the pattern match;
containers without a matching anchor or without a pattern match are skipped. -/
def containerInfo (c : ListingContainer) : Option CompanyInfo :=
  match c.anchors.find? isLibraryLink with
  | none => none
  | some a =>
    match findSlug a.href with
    | none => none
    | some slug => some ⟨slug, extractStand c.standText⟩

/-- All per-container infos of a listing page, in document order. -/
def companiesInfoOf (p : List ListingContainer) : List CompanyInfo :=
  p.filterMap containerInfo

/-- The de-duplication loop of async_scraper.py lines 341-347: keep the first
occurrence of each slug, tracking seen slugs. -/
def dedupBySlug : List CompanyInfo → List String → List CompanyInfo
  | [], _ => []
  | c :: rest, seen =>
    if seen.contains c.slug = true then dedupBySlug rest seen
    else c :: dedupBySlug rest (c.slug :: seen)

/-- `AsyncDSEICompanyScraper.get_company_slugs_from_page` restricted to its
parsing core (the page's HTML already fetched). -/
def get_company_slugs_from_page (p : List ListingContainer) : List CompanyInfo :=
  dedupBySlug (companiesInfoOf p) []

/-- `DSEICompanyScraper.get_company_slugs_from_page` (scraper.py lines
209-224): every `js-librarylink-entry` anchor of the whole document in order,
slug via the pattern match, and no de-duplication. -/
def sync_get_company_slugs_from_page (anchors : List Anchor) : List String :=
  (anchors.filter isLibraryLink).filterMap (fun a => findSlug a.href)

/-- Canonical first-seen de-duplication by slug, stated the way the spec words
it ("de-duplicate by identifier preserving first-seen order"). -/
def firstSeenBySlug : List CompanyInfo → List CompanyInfo
  | [] => []
  | c :: rest => c :: firstSeenBySlug (rest.filter (fun d => d.slug ≠ c.slug))
termination_by l => l.length
decreasing_by
  simp only [List.length_cons]
  have := List.length_filter_le (fun d => decide (d.slug ≠ c.slug)) rest
  omega

/-! ### Detail-page model and `get_company_details` -/

/-- A detail page as the four configured selectors and the anchor scan see it:
`titleText` is `select_one(title_selector).get_text(strip=True)` when the
selector matches (`none` otherwise), `categoryTexts` the stripped texts of all
category matches in document order, `descriptionText` the stripped text of the
first description match, `anchorHrefs` the hrefs of all `<a href=...>` elements
in document order. -/
structure DetailPage where
  titleText : Option String
  categoryTexts : List String
  descriptionText : Option String
  anchorHrefs : List String
deriving DecidableEq

/-- The record a successful detail fetch produces (async_scraper.py lines
436-444). -/
structure CompanyData where
  company_name : String
  slug_name : String
  url : String
  stand : String
  tags : String
  overview : String
  website : String
deriving DecidableEq

/-- Normalized de-duplication key: `company_name.lower().strip()`
(async_scraper.py lines 275 and 285). -/
def normName (s : String) : String := pyStrip (pyLower s)

/-- `is_company_already_scraped` (async_scraper.py line 275): membership of
the normalized name in the historical set. -/
def is_company_already_scraped (existing : List String) (company_name : String) : Bool :=
  existing.contains (normName company_name)

/-- `add_company_to_existing` (async_scraper.py lines 284-285): insert the
normalized name when the name is truthy and not whitespace-only. -/
def add_company_to_existing (existing : List String) (company_name : String) : List String :=
  if company_name ≠ "" ∧ pyStrip company_name ≠ "" then normName company_name :: existing
  else existing

/-- Anchor filter of the website scan (async_scraper.py line 426): href starts
with `http` and does not contain `dsei.co.uk` as a substring. -/
def isExternalHref (h : String) : Bool :=
  pyStartsWith ("http") h && !(pyContains ("dsei.co.uk") h)

/-- Website extraction (async_scraper.py lines 420-428): the first anchor href
passing `isExternalHref`, empty when none does. -/
def extractWebsite (hrefs : List String) : String :=
  (hrefs.find? isExternalHref).getD ""

/-- Overview cleanup (async_scraper.py line 442):
`overview.replace('\n', ' ').replace('\r', ' ')`. -/
def cleanOverview (s : String) : String :=
  replaceChar '\r' ' ' (replaceChar '\n' ' ' s)

/-- ASCII-adequate model of `urllib.parse.quote` (used only to build the
record's `url` field, which no claim inspects beyond being deterministic). -/
def pyQuote (s : String) : String :=
  ⟨s.data.flatMap (fun c =>
    if c.isAlphanum ∨ c = '_' ∨ c = '.' ∨ c = '-' ∨ c = '~' ∨ c = '/' then [c]
    else '%' :: (Nat.toDigits 16 c.toNat).map (fun d => d.toUpper))⟩

/-- The default `company_detail_url_template` of config.py line 46, applied to
a quoted slug and a page number. -/
def detailUrl (company_slug : String) (page : Nat) : String :=
  ("https://www.dsei.co.uk/exhibitors-list/") ++ pyQuote company_slug ++
    ("?=&page=") ++ toString page ++ ("&searchgroup=libraryentry-exhibitors-list")

/-- `AsyncDSEICompanyScraper.get_company_details` (async_scraper.py lines
359-451), with the network abstracted: `should_stop` is the stop-flag value the
task observes at its head check (line 372), and `fetched` the outcome of
`make_request_with_retry` plus parsing (`none` for a failed fetch, matching the
early `return None` of line 387 and the exception handler of lines 449-451). -/
def get_company_details (should_stop : Bool) (existing : List String)
    (company_slug : String) (page_number : Nat) (stand : String)
    (fetched : Option DetailPage) : Option CompanyData :=
  if should_stop = true then none
  else
    match fetched with
    | none => none
    | some d =>
      let company_name := d.titleText.getD ""
      if company_name ≠ "" ∧ is_company_already_scraped existing company_name = true then
        none
      else
        some
          { company_name := company_name
            slug_name := company_slug
            url := detailUrl company_slug page_number
            stand := stand
            tags := String.intercalate ("; ") (d.categoryTexts.filter (fun t => t ≠ ""))
            overview := cleanOverview (d.descriptionText.getD "")
            website := extractWebsite d.anchorHrefs }

/-! ### Transport: `make_request_with_retry` (async_scraper.py lines 161-223
and scraper.py lines 101-125) -/

/-- Outcome of one HTTP attempt, as the retry loops distinguish them:
a successful (non-error-status) response with its body text, an HTTP error
status (in-band `405`/`429` check or `raise_for_status`), or a network-level
failure (timeout, connection error). -/
inductive FetchOutcome where
  | ok (body : String)
  | httpStatus (code : Nat)
  | netErr
deriving DecidableEq

/-- `protection_timeouts = [30, 60, 90]` (async_scraper.py line 175). -/
def protection_timeouts : List Nat := [30, 60, 90]

/-- The async retry loop body (async_scraper.py lines 177-223), driven by an
oracle giving each attempt's outcome.  Returns the response body (or `none`
after exhaustion) together with the ordered list of sleep durations performed.
A throttling status (405 or 429) sleeps
`protection_timeouts[min(attempt, 2)]` and retries; any other failure sleeps
`2 ** attempt` when a retry remains; the loop runs at most `max_retries = 3`
attempts and then falls through to `return None`. -/
def async_retry_go (oracle : Nat → FetchOutcome) : List Nat → List Nat →
    Option String × List Nat
  | [], sleeps => (none, sleeps)
  | attempt :: rest, sleeps =>
    match oracle attempt with
    | .ok body => (some body, sleeps)
    | .httpStatus code =>
      if code = 405 ∨ code = 429 then
        async_retry_go oracle rest
          (sleeps ++ [protection_timeouts.getD (min attempt 2) 0])
      else if attempt < 2 then
        async_retry_go oracle rest (sleeps ++ [2 ^ attempt])
      else
        async_retry_go oracle rest sleeps
    | .netErr =>
      if attempt < 2 then
        async_retry_go oracle rest (sleeps ++ [2 ^ attempt])
      else
        async_retry_go oracle rest sleeps

/-- `AsyncDSEICompanyScraper.make_request_with_retry`: the loop body over
`for attempt in range(3)`. -/
def make_request_with_retry (oracle : Nat → FetchOutcome) : Option String × List Nat :=
  async_retry_go oracle (List.range 3) []

/-- The sync retry loop (scraper.py lines 112-125): every
`requests.exceptions.RequestException` — HTTP error statuses raised by
`raise_for_status` (429 and 405 included) as well as network failures — takes
the same exponential-backoff branch `2 ** attempt`, slept only when a retry
remains; at most 3 attempts, then `return None`. -/
def sync_retry_go (oracle : Nat → FetchOutcome) : List Nat → List Nat →
    Option String × List Nat
  | [], sleeps => (none, sleeps)
  | attempt :: rest, sleeps =>
    match oracle attempt with
    | .ok body => (some body, sleeps)
    | _ =>
      if attempt < 2 then
        sync_retry_go oracle rest (sleeps ++ [2 ^ attempt])
      else
        sync_retry_go oracle rest sleeps

/-- `DSEICompanyScraper.make_request_with_retry`: the loop body over
`for attempt in range(3)`. -/
def sync_make_request_with_retry (oracle : Nat → FetchOutcome) : Option String × List Nat :=
  sync_retry_go oracle (List.range 3) []

/-- The sleep schedule the claim prescribes for attempt `k` with outcome `o`:
throttling gets the escalating fixed schedule 30, 60, 90 capped at the last
value; other retryable failures get exponential base 2 starting at 1; a
success sleeps nothing; the last attempt of the generic path sleeps nothing. -/
def claimSleep (k : Nat) (o : FetchOutcome) : List Nat :=
  match o with
  | .ok _ => []
  | .httpStatus code =>
    if code = 405 ∨ code = 429 then [min ((k + 1) * 30) 90]
    else if k < 2 then [2 ^ k] else []
  | .netErr => if k < 2 then [2 ^ k] else []

/-- The sleep the sequential variant performs for attempt `k` with outcome
`o`: every failure — throttling included — gets the generic exponential
backoff, slept only while a retry remains. -/
def genericSleep (k : Nat) (o : FetchOutcome) : List Nat :=
  match o with
  | .ok _ => []
  | _ => if k < 2 then [2 ^ k] else []

/-- The attempts a retry loop over the given attempt indices actually
executes: indices in order until the first success. -/
def executedFrom (oracle : Nat → FetchOutcome) : List Nat → List Nat
  | [] => []
  | k :: rest =>
    match oracle k with
    | .ok _ => [k]
    | _ => k :: executedFrom oracle rest

/-- The attempts the 3-attempt retry loops actually execute: attempt indices
from 0 until the first success, at most 3. -/
def executedAttempts (oracle : Nat → FetchOutcome) : List Nat :=
  executedFrom oracle (List.range 3)

/-! ### Dedup-aware batch processing (async_scraper.py lines 549-607) -/

/-- The filter of already-processed slugs (async_scraper.py lines 561-564). -/
def companies_to_process (processed_slugs : List String) (companies_info : List CompanyInfo) :
    List CompanyInfo :=
  companies_info.filter (fun c => !(processed_slugs.contains c.slug))

/-- The task-creation loop (async_scraper.py lines 571-586): tasks are created
in listing order; the loop breaks as soon as the stop flag is observed
(`stopCreate i` is the flag value seen before creating task `i`). -/
def created_tasks (stopCreate : Nat → Bool) (l : List CompanyInfo) : List CompanyInfo :=
  ((l.enum).takeWhile (fun p => !(stopCreate p.1))).map (fun p => p.2)

/-- The submission-order results of the created tasks: task `i` processes its
company against the pre-batch `existing` set (no merge happens while the batch
is in flight), observing the stop flag value `stopTask i` at its head check. -/
def task_results (fetch : String → Option DetailPage) (stopTask : Nat → Bool)
    (existing : List String) (page_number : Nat) (created : List CompanyInfo) :
    List (Option CompanyData) :=
  (created.enum).map (fun p =>
    get_company_details (stopTask p.1) existing p.2.slug page_number p.2.stand (fetch p.2.slug))

/-- Model of `asyncio.gather`: tasks finish in an arbitrary completion order,
but `gather` hands results back indexed by submission position. -/
def gather_results (tasks : List (Option CompanyData)) (completion_order : List Nat) :
    List (Option CompanyData) :=
  let completions := completion_order.map (fun i => (i, tasks.getD i none))
  (List.range tasks.length).map (fun i =>
    ((completions.find? (fun p => p.1 = i)).map (fun p => p.2)).getD none)

/-- The merge loop (async_scraper.py lines 592-605): append each dict result
to the successes in order, inserting its name into the existing-companies set;
`None` and exception results are skipped. -/
def merge_batch (existing : List String) : List (Option CompanyData) →
    List CompanyData × List String
  | [] => ([], existing)
  | none :: rest => merge_batch existing rest
  | some cd :: rest =>
    let r := merge_batch (add_company_to_existing existing cd.company_name) rest
    (cd :: r.1, r.2)

/-- `AsyncDSEICompanyScraper.process_companies_batch`: filter processed slugs,
create tasks (marking slugs processed at creation), gather under a completion
order, merge.  Returns the batch successes, the updated existing-name set and
the updated processed-slug set. -/
def process_companies_batch (fetch : String → Option DetailPage)
    (stopCreate stopTask : Nat → Bool) (completion_order : List Nat)
    (existing processed_slugs : List String)
    (companies_info : List CompanyInfo) (page_number : Nat) :
    List CompanyData × List String × List String :=
  let toProc := companies_to_process processed_slugs companies_info
  let created := created_tasks stopCreate toProc
  let results := gather_results (task_results fetch stopTask existing page_number created)
    completion_order
  let merged := merge_batch existing results
  (merged.1, merged.2, processed_slugs ++ created.map (fun c => c.slug))

/-! ### Concurrency bound: the run-wide semaphore (async_scraper.py lines
43-47, 75 and 376) -/

/-- The semaphore size (async_scraper.py lines 43-47): the constructor
argument when given, else the async-config value with default 15. -/
def asyncSemaphoreSize (max_concurrent_tasks : Option Nat) (configValue : Option Nat) : Nat :=
  match max_concurrent_tasks with
  | some n => n
  | none => configValue.getD 15

/-- State of the single `asyncio.Semaphore` created once in `__init__`
(line 75) together with the number of detail fetches currently holding it:
every `get_company_details` call enters `async with self.semaphore`
(line 376) before fetching and leaves it afterwards, so a fetch is in flight
only while holding a permit. -/
structure SemState where
  permits : Nat
  inFlight : Nat
deriving DecidableEq

/-- The semaphore as created: all permits free, nothing in flight. -/
def initSem (n : Nat) : SemState := ⟨n, 0⟩

/-- One scheduler event touching the semaphore: a task acquires a permit
(possible only when one is free) and its fetch becomes in flight, or an
in-flight fetch finishes and releases its permit. -/
inductive SemStep : SemState → SemState → Prop
  | acquire (p f : Nat) (h : 0 < p) : SemStep ⟨p, f⟩ ⟨p - 1, f + 1⟩
  | release (p f : Nat) (h : 0 < f) : SemStep ⟨p, f⟩ ⟨p + 1, f - 1⟩

/-- States reachable during a run from the freshly created semaphore. -/
inductive SemReach (n : Nat) : SemState → Prop
  | init : SemReach n (initSem n)
  | step {s s' : SemState} : SemReach n s → SemStep s s' → SemReach n s'

/-! ### Sink: `save_to_csv` (async_scraper.py lines 480-528) -/

/-- The destination file as the sink observes it: whether the path exists and
its current content (`file_path.stat().st_size > 0` is `content ≠ ""`). -/
structure FileState where
  present : Bool
  content : String
deriving DecidableEq

/-- One field of a CSV row as `csv.DictWriter` (QUOTE_MINIMAL) renders it. -/
def csvField (s : String) : String :=
  if s.data.any (fun c => c = ',' ∨ c = '"' ∨ c = '\n' ∨ c = '\r') then
    "\"" ++ pyReplace s ("\"") ("\"\"") ++ "\""
  else s

/-- A CSV row: comma-joined rendered fields plus the default `\r\n`
terminator. -/
def csvRowOf (fields : List String) : String :=
  String.intercalate (",") (fields.map csvField) ++ "\r\n"

/-- The column contract of the async variant (async_scraper.py line 507). -/
def fieldnames : List String :=
  ["company_name", "slug_name", "url", "stand", "tags", "overview", "website"]

/-- The header row `writer.writeheader()` emits. -/
def headerRow : String := csvRowOf fieldnames

/-- One record row. -/
def rowOf (cd : CompanyData) : String :=
  csvRowOf [cd.company_name, cd.slug_name, cd.url, cd.stand, cd.tags, cd.overview, cd.website]

/-- The record rows of a batch, in order. -/
def bodyOf (rows : List CompanyData) : String := String.join (rows.map rowOf)

/-- `AsyncDSEICompanyScraper.save_to_csv` on one destination: no write at all
when there is no data (lines 487-489); otherwise append after the existing
content when the file exists non-empty (mode `'a'`, no header), else create
the file with a header row first (mode `'w'`, lines 499-522). -/
def save_to_csv (fs : FileState) (rows : List CompanyData) : FileState :=
  if rows = [] then fs
  else
    if fs.present = true ∧ fs.content ≠ "" then ⟨true, fs.content ++ bodyOf rows⟩
    else ⟨true, headerRow ++ bodyOf rows⟩

/-! ### Top level: the `try/except` of `scrape_all_companies`
(async_scraper.py lines 622-703) -/

/-- Which sinks a run flushed to, in order. -/
inductive SaveTarget where
  | mainSink
  | backupSink
deriving DecidableEq

/-- The exception handling around the crawl loop: `collected` is
`companies_data` when the loop ended, `failure` the unexpected exception (if
any) that escaped the loop.  On normal termination the main sink is written
once (line 685).  On an unexpected exception (lines 694-699) the main sink and
then a timestamped backup sink are written, provided anything was collected —
and the exception is logged but not re-raised, so the caller observes a normal
return (`none` in the last component). -/
def scrape_top_level (collected : List CompanyData) (failure : Option String)
    (mainF backF : FileState) :
    FileState × FileState × List SaveTarget × Option String :=
  match failure with
  | none => (save_to_csv mainF collected, backF, [SaveTarget.mainSink], none)
  | some _ =>
    if collected ≠ [] then
      (save_to_csv mainF collected, save_to_csv backF collected,
        [SaveTarget.mainSink, SaveTarget.backupSink], none)
    else (mainF, backF, [], none)

/-! ### The crawl scheduler loop (async_scraper.py lines 629-678) -/

/-- The run's environment: per-page listing results (after parsing; `[]` also
covers a failed listing fetch), per-page detail-fetch oracles, the
`has_next_page` probe, the stop-flag values observed at each checkpoint (top
of the loop, before the batch, during task creation, at each task's head
check) and each page batch's completion order. -/
structure SchedEnv where
  listing : Nat → List CompanyInfo
  fetch : Nat → String → Option DetailPage
  hasNext : Nat → Bool
  stopTop : Nat → Bool
  stopPre : Nat → Bool
  stopCreate : Nat → Nat → Bool
  stopTask : Nat → Nat → Bool
  order : Nat → List Nat

/-- The scheduler's mutable state, plus the ghost list of pages whose detail
batch was dispatched. -/
structure RunState where
  companies_data : List CompanyData
  existing : List String
  processed_slugs : List String
  dispatched_pages : List Nat
deriving DecidableEq

/-- The `while True` loop of `scrape_all_companies`, fuelled: check the stop
flag, check the page ceiling (`max_pages` falsy means no ceiling), fetch and
parse the listing (empty ⇒ done), re-check the stop flag, dispatch and merge
the page's batch, then probe `has_next_page` and loop. -/
def scrape_loop (env : SchedEnv) (max_pages : Option Nat) :
    Nat → Nat → Nat → RunState → RunState
  | 0, _, _, st => st
  | fuel + 1, current_page, pages_scraped, st =>
    if env.stopTop current_page = true then st
    else if (match max_pages with | some m => decide (m ≠ 0 ∧ m ≤ pages_scraped) | none => false) = true then st
    else
      match env.listing current_page with
      | [] => st
      | c :: cs =>
        if env.stopPre current_page = true then st
        else
          let r := process_companies_batch (env.fetch current_page)
            (env.stopCreate current_page) (env.stopTask current_page)
            (env.order current_page) st.existing st.processed_slugs (c :: cs) current_page
          let st' : RunState :=
            { companies_data := st.companies_data ++ r.1
              existing := r.2.1
              processed_slugs := r.2.2
              dispatched_pages := st.dispatched_pages ++ [current_page] }
          if env.hasNext current_page = false then st'
          else scrape_loop env max_pages fuel (current_page + 1) (pages_scraped + 1) st'

/-! ### Spec-side definitions for the external-link refinement check (C5) -/

/-- Split a URL at the first `://`, returning (scheme characters, remainder).
Used only by the spec-side external-link definition below. -/
def splitSchemeList (acc : List Char) : List Char → Option (List Char × List Char)
  | [] => none
  | c :: rest =>
    if c = ':' ∧ rest.take 2 = ['/', '/'] then some (acc.reverse, rest.drop 2)
    else splitSchemeList (c :: acc) rest

/-- Spec-side: whether a reference starts with an absolute scheme (RFC-style:
a letter followed by letters, digits, `+`, `-` or `.`, then `://`). -/
def hasAbsoluteScheme (h : String) : Bool :=
  match splitSchemeList [] h.data with
  | none => false
  | some (sch, _) =>
    (match sch.head? with | some c => c.isAlpha | none => false) &&
      sch.all (fun c => c.isAlpha || c.isDigit || c == '+' || c == '-' || c == '.')

/-- Spec-side: the host of an absolute URL (authority up to `/`, `?`, `#`,
with any `:port` removed). -/
def specHostOf (h : String) : String :=
  match splitSchemeList [] h.data with
  | none => ""
  | some (_, rest) =>
    ⟨(rest.takeWhile (fun c => decide (c ≠ '/' ∧ c ≠ '?' ∧ c ≠ '#'))).takeWhile
      (fun c => decide (c ≠ ':'))⟩

/-- The configured base URL (config.py line 44). -/
def base_url : String := "https://www.dsei.co.uk"

/-- The target site's own host, derived from the base URL. -/
def siteHost : String := specHostOf base_url

/-- Spec-side: whether a host matches the target site's own host (with or
without the `www` label). -/
def hostMatchesSite (h : String) : Bool :=
  h == siteHost || h == ("dsei.co.uk")

/-- Stated from the spec's words, for comparison with the code's
`extractWebsite` (refinement check for C5): "the first anchor whose reference
attribute starts with an absolute scheme and whose host does not match the
target site's own host; empty if none found". -/
def external_link_spec (hrefs : List String) : String :=
  (hrefs.find? (fun h => hasAbsoluteScheme h && !(hostMatchesSite h))).getD ""

/-- First matching href stated the way the amended claim words it: the first
anchor in document order whose reference starts with the literal `http` and
does not contain `dsei.co.uk` as a substring. -/
def firstExternalHref : List String → String
  | [] => ""
  | h :: rest => if isExternalHref h = true then h else firstExternalHref rest

/-! ### Concrete inputs used by counterexamples and witnesses -/

/-- A detail page whose title extracts to `Acme` and nothing else. -/
def acmeDetail : DetailPage :=
  { titleText := some ("Acme"), categoryTexts := [], descriptionText := none, anchorHrefs := [] }

/-- Two distinct listing entries whose detail pages carry the same name. -/
def dupBatchInfos : List CompanyInfo :=
  [{ slug := ("acme-1"), stand := "" }, { slug := ("acme-2"), stand := "" }]

/-- A stop-flag observation that never fires. -/
def noStop : Nat → Bool := fun _ => false

/-- The batch of `dupBatchInfos` processed against an empty ledger, every task
fetching `acmeDetail`, with the identity completion order. -/
def dupBatchResult : List CompanyData × List String × List String :=
  process_companies_batch (fun _ => some acmeDetail) noStop noStop [0, 1] [] [] dupBatchInfos 1

/-- A listing href embedding the slug `acme` (the `javascript:openRemoteModal`
shape the site uses). -/
def acmeHref : String :=
  ⟨("javascript:openRemoteModal(").data ++ quoteChar :: ("exhibitors-list/acme").data ++
    quoteChar :: (",").data ++ quoteChar :: ("ajax").data ++ quoteChar :: (")").data⟩

/-- A `js-librarylink-entry` anchor pointing at `acme`. -/
def acmeAnchor : Anchor := { classes := [("js-librarylink-entry")], href := acmeHref }

/-- A detail-page href that is external by host but mentions `dsei.co.uk` in
its path. -/
def mixedHref : String := "http://example.com/dsei.co.uk-info"

/-- A detail page exercising categories, a multi-line overview and the anchor
scan. -/
def radarDetail : DetailPage :=
  { titleText := some ("Wind River")
    categoryTexts := [("Radar"), (""), ("Avionics")]
    descriptionText := some ("line one\nline two\rline three")
    anchorHrefs := [("https://www.dsei.co.uk/visit"), ("https://www.windriver.com")] }

/-- The record `get_company_details` produces from `radarDetail` for slug
`wind`, page 1, stand `B1`. -/
def radarRecord : CompanyData :=
  { company_name := ("Wind River")
    slug_name := ("wind")
    url := detailUrl ("wind") 1
    stand := ("B1")
    tags := ("Radar; Avionics")
    overview := ("line one line two line three")
    website := ("https://www.windriver.com") }

/-- A sample collected record. -/
def sampleRecord : CompanyData :=
  { company_name := ("Acme"), slug_name := ("acme"), url := ("u"), stand := ("B1")
    tags := (""), overview := (""), website := ("") }

/-- A tiny scheduler environment: one listing entry on every page, fetches
resolving to `acmeDetail`, the stop flag raised from page 2 on. -/
def envEx : SchedEnv :=
  { listing := fun _ => [{ slug := ("acme-1"), stand := "" }]
    fetch := fun _ _ => some acmeDetail
    hasNext := fun _ => true
    stopTop := fun q => decide (1 < q)
    stopPre := fun _ => false
    stopCreate := fun _ _ => false
    stopTask := fun _ _ => false
    order := fun _ => [0] }

/-- The empty initial run state. -/
def st0 : RunState :=
  { companies_data := [], existing := [], processed_slugs := [], dispatched_pages := [] }

/-! ## Theorems

Shared helper lemmas first, then one theorem (plus counterexample and witness
where required) per claim. -/

theorem contains_iff_mem (l : List String) (a : String) : l.contains a = true ↔ a ∈ l := by
  simp [List.contains]

theorem contains_false_iff (l : List String) (a : String) :
    l.contains a = false ↔ a ∉ l := by
  rw [← Bool.not_eq_true, not_iff_not]
  exact contains_iff_mem l a

theorem dedupBySlug_not_seen (l : List CompanyInfo) :
    ∀ seen, ∀ c ∈ dedupBySlug l seen, seen.contains c.slug = false := by
  induction l with
  | nil => intro seen c hc; simp [dedupBySlug] at hc
  | cons a rest ih =>
    intro seen c hc
    by_cases ha : seen.contains a.slug = true
    · rw [dedupBySlug, if_pos ha] at hc
      exact ih seen c hc
    · rw [dedupBySlug, if_neg ha] at hc
      rcases List.mem_cons.mp hc with h | h
      · subst h; exact Bool.eq_false_iff.mpr ha
      · have := ih (a.slug :: seen) c h
        rw [contains_false_iff] at this ⊢
        intro hmem
        exact this (List.mem_cons_of_mem _ hmem)

theorem dedupBySlug_nodup (l : List CompanyInfo) :
    ∀ seen, ((dedupBySlug l seen).map (fun c => c.slug)).Nodup := by
  induction l with
  | nil => intro seen; simp [dedupBySlug]
  | cons a rest ih =>
    intro seen
    by_cases ha : seen.contains a.slug = true
    · rw [dedupBySlug, if_pos ha]; exact ih seen
    · rw [dedupBySlug, if_neg ha]
      refine List.nodup_cons.mpr ⟨?_, ih (a.slug :: seen)⟩
      intro hmem
      rcases List.mem_map.mp hmem with ⟨c, hc, hslug⟩
      have := dedupBySlug_not_seen rest (a.slug :: seen) c hc
      rw [contains_false_iff] at this
      exact this (by rw [hslug]; exact List.mem_cons_self _ _)

theorem dedupBySlug_mem (l : List CompanyInfo) :
    ∀ seen s, s ∈ (dedupBySlug l seen).map (fun c => c.slug) ↔
      (s ∈ l.map (fun c => c.slug) ∧ seen.contains s = false) := by
  induction l with
  | nil => intro seen s; simp [dedupBySlug]
  | cons a rest ih =>
    intro seen s
    by_cases ha : seen.contains a.slug = true
    · rw [dedupBySlug, if_pos ha]
      rw [ih seen s]
      simp only [List.map_cons, List.mem_cons]
      constructor
      · rintro ⟨h1, h2⟩; exact ⟨Or.inr h1, h2⟩
      · rintro ⟨h1 | h1, h2⟩
        · exfalso; subst h1; rw [h2] at ha; exact Bool.false_ne_true ha
        · exact ⟨h1, h2⟩
    · rw [dedupBySlug, if_neg ha]
      simp only [List.map_cons, List.mem_cons]
      rw [ih (a.slug :: seen) s]
      constructor
      · rintro (h | ⟨h1, h2⟩)
        · exact ⟨Or.inl h, by subst h; exact Bool.eq_false_iff.mpr ha⟩
        · rw [contains_false_iff] at h2
          refine ⟨Or.inr h1, ?_⟩
          rw [contains_false_iff]
          intro hs; exact h2 (List.mem_cons_of_mem _ hs)
      · rintro ⟨h1 | h1, h2⟩
        · exact Or.inl h1
        · by_cases hsa : s = a.slug
          · exact Or.inl hsa
          · refine Or.inr ⟨h1, ?_⟩
            rw [contains_false_iff] at h2 ⊢
            intro hs
            rcases List.mem_cons.mp hs with h | h
            · exact hsa h
            · exact h2 h

theorem dedupBySlug_sublist (l : List CompanyInfo) :
    ∀ seen, (dedupBySlug l seen).Sublist l := by
  induction l with
  | nil => intro seen; simp [dedupBySlug]
  | cons a rest ih =>
    intro seen
    by_cases ha : seen.contains a.slug = true
    · rw [dedupBySlug, if_pos ha]
      exact (ih seen).trans (List.sublist_cons_self a rest)
    · rw [dedupBySlug, if_neg ha]
      exact List.Sublist.cons₂ a (ih (a.slug :: seen))

theorem dedupBySlug_eq_firstSeen (l : List CompanyInfo) :
    ∀ seen, dedupBySlug l seen =
      firstSeenBySlug (l.filter (fun c => seen.contains c.slug = false)) := by
  induction l with
  | nil => intro seen; simp [dedupBySlug, firstSeenBySlug]
  | cons a rest ih =>
    intro seen
    by_cases ha : seen.contains a.slug = true
    · rw [dedupBySlug, if_pos ha]
      rw [List.filter_cons_of_neg
        (by simp only [decide_eq_true_eq]; simp only [ha]; exact fun hc => Bool.noConfusion hc)]
      exact ih seen
    · rw [dedupBySlug, if_neg ha]
      rw [List.filter_cons_of_pos
        (by simp only [decide_eq_true_eq]; exact Bool.eq_false_iff.mpr ha)]
      rw [firstSeenBySlug]
      congr 1
      rw [ih (a.slug :: seen), List.filter_filter]
      congr 1
      refine List.filter_congr ?_
      intro c _
      by_cases h1 : c.slug = a.slug
      · simp [List.contains, h1]
      · by_cases h2 : c.slug ∈ seen
        · simp [List.contains, h1, h2]
        · simp [List.contains, h1, h2]

/-- C4, counterexample: the sequential variant's listing parse
(`DSEICompanyScraper.get_company_slugs_from_page`) performs no
de-duplication — a listing fragment containing the same
`'exhibitors-list/acme'` anchor twice yields the identifier `acme` twice,
contradicting the claim that for every listing input no identifier appears
twice in the result. -/
theorem C4_counterexample :
    sync_get_company_slugs_from_page [acmeAnchor, acmeAnchor] = [("acme"), ("acme")]
    ∧ ¬ (sync_get_company_slugs_from_page [acmeAnchor, acmeAnchor]).Nodup := by
  decide

/-- C4 (amended): the concurrent variant's listing parse collects, per
container block, the identifier embedded in the container's first matching
anchor, and de-duplicates by identifier preserving first-seen document order —
its result is the canonical first-seen de-duplication of the extracted
sequence, its identifiers are pairwise distinct, it contains exactly the
extracted identifiers, and it is a subsequence of the extracted sequence.  The
sequential variant's parse instead yields the identifier of every matching
anchor in document order with no de-duplication. -/
theorem C4_listing_extraction (p : List ListingContainer) (anchors : List Anchor) :
    get_company_slugs_from_page p = firstSeenBySlug (companiesInfoOf p)
    ∧ ((get_company_slugs_from_page p).map (fun c => c.slug)).Nodup
    ∧ (∀ s, s ∈ (get_company_slugs_from_page p).map (fun c => c.slug) ↔
        s ∈ (companiesInfoOf p).map (fun c => c.slug))
    ∧ (get_company_slugs_from_page p).Sublist (companiesInfoOf p)
    ∧ sync_get_company_slugs_from_page anchors
        = (anchors.filter isLibraryLink).filterMap (fun a => findSlug a.href) := by
  refine ⟨?_, ?_, ?_, ?_, rfl⟩
  · rw [get_company_slugs_from_page, dedupBySlug_eq_firstSeen]
    congr 1
    refine List.filter_eq_self.mpr ?_
    intro c _
    simp [List.contains]
  · exact dedupBySlug_nodup (companiesInfoOf p) []
  · intro s
    rw [get_company_slugs_from_page, dedupBySlug_mem]
    simp [List.contains]
  · exact dedupBySlug_sublist (companiesInfoOf p) []

/-- C8, counterexample: a call of the sink's append operation with an empty
record batch writes nothing at all (`if not self.companies_data: return`) —
with a missing destination no header row is written and the file is not even
created, contradicting the claim's "header if and only if the destination
does not exist or is empty" for every call. -/
theorem C8_counterexample :
    save_to_csv ⟨false, ("")⟩ [] = ⟨false, ("")⟩ ∧ headerRow ≠ ("") := by
  decide

/-- C8 (amended): for every call of the sink's append operation with at least
one record, a header row is written first if and only if the destination does
not exist or is empty; when the destination exists non-empty the new content
is exactly the old content followed by the record rows — nothing is rewritten
or truncated and no second header is emitted. -/
theorem C8_append_discipline (fs : FileState) (rows : List CompanyData) (h : rows ≠ []) :
    ((fs.present = true ∧ fs.content ≠ "") →
      save_to_csv fs rows = ⟨true, fs.content ++ bodyOf rows⟩)
    ∧ (¬(fs.present = true ∧ fs.content ≠ "") →
      save_to_csv fs rows = ⟨true, headerRow ++ bodyOf rows⟩) := by
  constructor <;> intro hc <;> simp [save_to_csv, h, hc]

/-- C8, witness: appending one record to an existing non-empty file keeps the
old content as a prefix and appends exactly the record rows. -/
theorem C8_append_discipline_witness :
    save_to_csv ⟨true, ("existing")⟩ [sampleRecord]
      = ⟨true, ("existing") ++ bodyOf [sampleRecord]⟩ :=
  (C8_append_discipline ⟨true, ("existing")⟩ [sampleRecord] (by decide)).1 (by decide)

/-- C9, counterexample: an unexpected exception escaping the crawl loop is
caught and logged, the collected records are flushed, and
`scrape_all_companies` returns normally — the propagated-error component the
caller observes is `none`, not the exception, contradicting the claim that
the error is reported upward to the caller. -/
theorem C9_counterexample :
    (scrape_top_level [sampleRecord] (some ("boom")) ⟨false, ("")⟩ ⟨false, ("")⟩).2.2.2 = none
    ∧ some ("boom") ≠ (none : Option String) := by
  decide

/-- Characters of a concatenation of strings. -/
theorem string_data_append (a b : String) : (a ++ b).data = a.data ++ b.data := by
  cases a; cases b; rfl

/-- C9 (amended): on the unexpected-exception path with a non-empty collected
set, the records are flushed to the main sink and then to a timestamped
backup sink (the collected rows end up at the tail of the main sink's
content), and the run ends without re-raising — the exception is logged, not
propagated to the caller. -/
theorem C9_fatal_flush (collected : List CompanyData) (msg : String) (mainF backF : FileState)
    (h : collected ≠ []) :
    (scrape_top_level collected (some msg) mainF backF).1 = save_to_csv mainF collected
    ∧ (scrape_top_level collected (some msg) mainF backF).2.1 = save_to_csv backF collected
    ∧ (scrape_top_level collected (some msg) mainF backF).2.2.1
        = [SaveTarget.mainSink, SaveTarget.backupSink]
    ∧ (scrape_top_level collected (some msg) mainF backF).2.2.2 = none
    ∧ (bodyOf collected).data <:+
        ((scrape_top_level collected (some msg) mainF backF).1.content).data := by
  have htop : scrape_top_level collected (some msg) mainF backF
      = (save_to_csv mainF collected, save_to_csv backF collected,
        [SaveTarget.mainSink, SaveTarget.backupSink], none) := by
    simp [scrape_top_level, h]
  refine ⟨by rw [htop], by rw [htop], by rw [htop], by rw [htop], ?_⟩
  rw [htop]
  show (bodyOf collected).data <:+ (save_to_csv mainF collected).content.data
  rw [save_to_csv, if_neg h]
  by_cases hc : mainF.present = true ∧ mainF.content ≠ ""
  · rw [if_pos hc]
    rw [string_data_append]
    exact List.suffix_append _ _
  · rw [if_neg hc]
    rw [string_data_append]
    exact List.suffix_append _ _

/-- C9, witness: the exception path at a concrete input records both sink
flushes in order. -/
theorem C9_fatal_flush_witness :
    (scrape_top_level [sampleRecord] (some ("boom")) ⟨false, ("")⟩ ⟨false, ("")⟩).2.2.1
      = [SaveTarget.mainSink, SaveTarget.backupSink] :=
  (C9_fatal_flush [sampleRecord] ("boom") ⟨false, ("")⟩ ⟨false, ("")⟩ (by decide)).2.2.1

/-- A semaphore step preserves the permit/in-flight sum. -/
theorem semStep_inv {n : Nat} {s s' : SemState} (hinv : s.permits + s.inFlight = n)
    (hstep : SemStep s s') : s'.permits + s'.inFlight = n := by
  cases hstep with
  | acquire p f h => simp only at hinv ⊢; omega
  | release p f h => simp only at hinv ⊢; omega

/-- Every state reachable from the fresh semaphore keeps the sum invariant. -/
theorem semReach_inv {n : Nat} {s : SemState} (h : SemReach n s) :
    s.permits + s.inFlight = n := by
  induction h with
  | init => simp [initSem]
  | step _ hs ih => exact semStep_inv ih hs

/-- C2: for every configured limit (default 15 when neither the constructor
argument nor the async-config value is given), in every state reachable
during a run of the single run-wide semaphore, the number of in-flight detail
fetches never exceeds the limit. -/
theorem C2_concurrency_bound (arg cfg : Option Nat) (s : SemState)
    (h : SemReach (asyncSemaphoreSize arg cfg) s) :
    s.inFlight ≤ asyncSemaphoreSize arg cfg ∧ asyncSemaphoreSize none none = 15 := by
  refine ⟨?_, rfl⟩
  have := semReach_inv h
  omega

/-- C2, witness: one acquired permit out of the default 15. -/
theorem C2_concurrency_bound_witness :
    (⟨14, 1⟩ : SemState).inFlight ≤ asyncSemaphoreSize none none
    ∧ asyncSemaphoreSize none none = 15 :=
  C2_concurrency_bound none none ⟨14, 1⟩
    (SemReach.step SemReach.init (SemStep.acquire 15 0 (by decide)))

/-- The two newline-replacement passes collapse to one character map sending
`\n` and `\r` to a space. -/
theorem cleanOverview_data (s : String) :
    (cleanOverview s).data = s.data.map (fun c => if c = '\n' ∨ c = '\r' then ' ' else c) := by
  show ((s.data.map (fun c => if c = '\n' then ' ' else c)).map
      (fun c => if c = '\r' then ' ' else c))
    = s.data.map (fun c => if c = '\n' ∨ c = '\r' then ' ' else c)
  rw [List.map_map]
  have hfun : ((fun c => if c = '\r' then ' ' else c) ∘ (fun c => if c = '\n' then ' ' else c))
      = (fun c : Char => if c = '\n' ∨ c = '\r' then ' ' else c) := by
    funext c
    by_cases h1 : c = '\n'
    · simp [h1]
    · by_cases h2 : c = '\r' <;> simp [h1, h2]
  rw [hfun]

/-- A cleaned overview contains no newline and no carriage-return
character. -/
theorem cleanOverview_no_crlf (s : String) :
    ∀ c ∈ (cleanOverview s).data, c ≠ '\n' ∧ c ≠ '\r' := by
  intro c hc
  rw [cleanOverview_data] at hc
  rcases List.mem_map.mp hc with ⟨a, _, ha⟩
  by_cases h1 : a = '\n' ∨ a = '\r'
  · rw [← ha, if_pos h1]
    exact ⟨by decide, by decide⟩
  · rw [← ha, if_neg h1]
    push_neg at h1
    exact h1

/-- C6: every record a successful detail fetch produces has `tags` equal to
the non-blank category texts in document order joined with `"; "` (empty when
no category matches), and an `overview` equal to the description text with
every newline and carriage-return character replaced by a space — hence
containing neither — and empty when the description selector matches
nothing. -/
theorem C6_detail_fields (existing : List String) (slug : String) (page : Nat)
    (stand : String) (d : DetailPage) (cd : CompanyData)
    (h : get_company_details false existing slug page stand (some d) = some cd) :
    cd.tags = String.intercalate ("; ") (d.categoryTexts.filter (fun t => t ≠ ""))
    ∧ (d.categoryTexts = [] → cd.tags = "")
    ∧ cd.overview.data = (d.descriptionText.getD "").data.map
        (fun c => if c = '\n' ∨ c = '\r' then ' ' else c)
    ∧ (∀ c ∈ cd.overview.data, c ≠ '\n' ∧ c ≠ '\r')
    ∧ (d.descriptionText = none → cd.overview = "") := by
  rw [get_company_details] at h
  simp only [if_neg (by decide : ¬ false = true)] at h
  by_cases hdup : (d.titleText.getD "") ≠ "" ∧
      is_company_already_scraped existing (d.titleText.getD "") = true
  · rw [if_pos hdup] at h
    exact absurd h (by simp)
  · rw [if_neg hdup] at h
    have hcd := (Option.some_injective _ h).symm
    subst hcd
    refine ⟨rfl, ?_, ?_, ?_, ?_⟩
    · intro hcat; simp [hcat, String.intercalate]
    · exact cleanOverview_data _
    · exact cleanOverview_no_crlf _
    · intro hdesc; simp [hdesc, cleanOverview, replaceChar]

/-- C6, witness: the concrete detail page with categories
`Radar`, `Avionics` (plus one blank) and a multi-line overview yields
exactly the joined tags and a newline-free overview. -/
theorem C6_detail_fields_witness :
    radarRecord.tags
      = String.intercalate ("; ") (radarDetail.categoryTexts.filter (fun t => t ≠ ""))
    ∧ (∀ c ∈ radarRecord.overview.data, c ≠ '\n' ∧ c ≠ '\r') :=
  ⟨(C6_detail_fields [] ("wind") 1 ("B1") radarDetail radarRecord (by decide)).1,
   (C6_detail_fields [] ("wind") 1 ("B1") radarDetail radarRecord (by decide)).2.2.2.1⟩

/-- C5, counterexample: the code selects by the substring test
`'dsei.co.uk' not in href`, not by host.  For a detail page whose only anchor
is `http://example.com/dsei.co.uk-info` — an absolute URL whose host
`example.com` does not match the site's host — the claim says the extracted
external link is that href, but the code returns the empty string because the
href mentions `dsei.co.uk` in its path. -/
theorem C5_counterexample :
    extractWebsite [mixedHref] = ("")
    ∧ external_link_spec [mixedHref] = mixedHref
    ∧ extractWebsite [mixedHref] ≠ external_link_spec [mixedHref] := by
  decide

/-- The find?-based scan equals the first-match recursion. -/
theorem extractWebsite_eq_first (hrefs : List String) :
    extractWebsite hrefs = firstExternalHref hrefs := by
  induction hrefs with
  | nil => rfl
  | cons h rest ih =>
    rw [extractWebsite, firstExternalHref]
    by_cases hh : isExternalHref h = true
    · rw [List.find?_cons_of_pos _ hh, if_pos hh]
      rfl
    · rw [List.find?_cons_of_neg _ (by simpa using hh), if_neg hh]
      exact ih

/-- With no matching anchor the scan yields the empty string. -/
theorem firstExternalHref_empty (hrefs : List String)
    (h : ∀ g ∈ hrefs, isExternalHref g = false) : firstExternalHref hrefs = "" := by
  induction hrefs with
  | nil => rfl
  | cons g rest ih =>
    rw [firstExternalHref, if_neg (by simp [h g (List.mem_cons_self g rest)])]
    exact ih (fun x hx => h x (List.mem_cons_of_mem g hx))

/-- C5 (amended): the extracted `website` is the reference attribute of the
first anchor in document order whose reference starts with the literal
`http` and does not contain `dsei.co.uk` as a substring, and is the empty
string when no anchor qualifies. -/
theorem C5_external_link (hrefs pre post : List String) (h : String) :
    extractWebsite hrefs = firstExternalHref hrefs
    ∧ ((∀ g ∈ hrefs, isExternalHref g = false) → extractWebsite hrefs = "")
    ∧ (hrefs = pre ++ h :: post → isExternalHref h = true →
        (∀ g ∈ pre, isExternalHref g = false) → extractWebsite hrefs = h) := by
  refine ⟨extractWebsite_eq_first hrefs, ?_, ?_⟩
  · intro hnone
    rw [extractWebsite_eq_first]
    exact firstExternalHref_empty hrefs hnone
  · intro heq hext hpre
    subst heq
    rw [extractWebsite_eq_first]
    induction pre with
    | nil =>
      rw [List.nil_append, firstExternalHref, if_pos hext]
    | cons g rest ih =>
      rw [List.cons_append, firstExternalHref,
        if_neg (by simp [hpre g (List.mem_cons_self g rest)])]
      exact ih (fun x hx => hpre x (List.mem_cons_of_mem g hx))

/-- C5, witness: the site-internal anchor is skipped and the first qualifying
anchor is selected. -/
theorem C5_external_link_witness :
    extractWebsite [("https://www.dsei.co.uk/visit"), ("https://www.windriver.com")]
      = ("https://www.windriver.com") :=
  (C5_external_link [("https://www.dsei.co.uk/visit"), ("https://www.windriver.com")]
      [("https://www.dsei.co.uk/visit")] [] ("https://www.windriver.com")).2.2
    rfl (by decide) (by decide)

/-- C3, counterexample: on persistent throttling (429 on every attempt) the
sequential variant sleeps 1s then 2s — the generic exponential schedule — not
the 30s/60s/90s throttling schedule the claim prescribes for every request;
the concurrent variant does sleep 30s/60s/90s. -/
theorem C3_counterexample :
    (sync_make_request_with_retry (fun _ => FetchOutcome.httpStatus 429)).2 = [1, 2]
    ∧ (make_request_with_retry (fun _ => FetchOutcome.httpStatus 429)).2 = [30, 60, 90]
    ∧ (1 : Nat) ≠ 30 := by
  decide

/-- The code's throttling table lookup equals the claim's capped schedule. -/
theorem protTimeout_eq (k : Nat) :
    protection_timeouts.getD (min k 2) 0 = min ((k + 1) * 30) 90 := by
  match k with
  | 0 => decide
  | 1 => decide
  | (k + 2) =>
    have h2 : min (k + 2) 2 = 2 := by omega
    rw [h2]
    have h90 : 90 ≤ (k + 2 + 1) * 30 := by omega
    rw [Nat.min_eq_right h90]
    decide

/-- The async retry loop's sleep log is the claim schedule over the executed
attempts. -/
theorem async_retry_sleeps (oracle : Nat → FetchOutcome) (attempts : List Nat) :
    ∀ sleeps, (async_retry_go oracle attempts sleeps).2
      = sleeps ++ (executedFrom oracle attempts).flatMap (fun k => claimSleep k (oracle k)) := by
  induction attempts with
  | nil => intro sleeps; simp [async_retry_go, executedFrom]
  | cons k rest ih =>
    intro sleeps
    rcases ho : oracle k with b | c | _
    · simp [async_retry_go, executedFrom, ho, claimSleep]
    · by_cases hc : c = 405 ∨ c = 429
      · simp [async_retry_go, executedFrom, ho, hc, ih, claimSleep]
        rw [← List.getD_eq_getElem?_getD]
        exact protTimeout_eq k
      · by_cases hk : k < 2
        · simp [async_retry_go, executedFrom, ho, hc, hk, ih, claimSleep]
        · simp [async_retry_go, executedFrom, ho, hc, hk, ih, claimSleep]
    · by_cases hk : k < 2
      · simp [async_retry_go, executedFrom, ho, hk, ih, claimSleep]
      · simp [async_retry_go, executedFrom, ho, hk, ih, claimSleep]

/-- Exhausting every attempt without a success makes the async loop return
no data (never an exception). -/
theorem async_retry_none (oracle : Nat → FetchOutcome) (attempts : List Nat) :
    ∀ sleeps, (∀ j ∈ attempts, ∀ b, oracle j ≠ FetchOutcome.ok b) →
      (async_retry_go oracle attempts sleeps).1 = none := by
  induction attempts with
  | nil => intro sleeps _; simp [async_retry_go]
  | cons k rest ih =>
    intro sleeps hfail
    have hrest : ∀ j ∈ rest, ∀ b, oracle j ≠ FetchOutcome.ok b :=
      fun j hj => hfail j (List.mem_cons_of_mem k hj)
    rcases ho : oracle k with b | c | _
    · exact absurd ho (hfail k (List.mem_cons_self k rest) _)
    · by_cases hc : c = 405 ∨ c = 429
      · simp [async_retry_go, ho, hc, ih _ hrest]
      · by_cases hk : k < 2
        · simp [async_retry_go, ho, hc, hk, ih _ hrest]
        · simp [async_retry_go, ho, hc, hk, ih _ hrest]
    · by_cases hk : k < 2
      · simp [async_retry_go, ho, hk, ih _ hrest]
      · simp [async_retry_go, ho, hk, ih _ hrest]

/-- The sync retry loop's sleep log is the generic exponential schedule over
the executed attempts. -/
theorem sync_retry_sleeps (oracle : Nat → FetchOutcome) (attempts : List Nat) :
    ∀ sleeps, (sync_retry_go oracle attempts sleeps).2
      = sleeps ++ (executedFrom oracle attempts).flatMap (fun k => genericSleep k (oracle k)) := by
  induction attempts with
  | nil => intro sleeps; simp [sync_retry_go, executedFrom]
  | cons k rest ih =>
    intro sleeps
    rcases ho : oracle k with b | c | _ <;> by_cases hk : k < 2 <;>
      simp [sync_retry_go, executedFrom, ho, hk, ih, genericSleep]

/-- Exhausting every attempt makes the sync loop return no data. -/
theorem sync_retry_none (oracle : Nat → FetchOutcome) (attempts : List Nat) :
    ∀ sleeps, (∀ j ∈ attempts, ∀ b, oracle j ≠ FetchOutcome.ok b) →
      (sync_retry_go oracle attempts sleeps).1 = none := by
  induction attempts with
  | nil => intro sleeps _; simp [sync_retry_go]
  | cons k rest ih =>
    intro sleeps hfail
    have hrest : ∀ j ∈ rest, ∀ b, oracle j ≠ FetchOutcome.ok b :=
      fun j hj => hfail j (List.mem_cons_of_mem k hj)
    rcases ho : oracle k with b | c | _
    · exact absurd ho (hfail k (List.mem_cons_self k rest) _)
    · by_cases hk : k < 2 <;> simp [sync_retry_go, ho, hk, ih _ hrest]
    · by_cases hk : k < 2 <;> simp [sync_retry_go, ho, hk, ih _ hrest]

/-- The executed attempts never outnumber the attempt list. -/
theorem executedFrom_length (oracle : Nat → FetchOutcome) (l : List Nat) :
    (executedFrom oracle l).length ≤ l.length := by
  induction l with
  | nil => simp [executedFrom]
  | cons k rest ih =>
    rcases ho : oracle k with b | c | _ <;> simp [executedFrom, ho] <;> omega

/-- C3 (amended): in the concurrent variant every executed attempt that
receives a throttling response (405 or 429) waits per the escalating fixed
schedule 30s, 60s, 90s capped at the last value, while other retryable
failures wait exponentially (base 2 starting at 1, only while a retry
remains); in the sequential variant every failure — throttling included —
waits per the generic exponential schedule.  Both variants are bounded by 3
attempts and return a no-data result rather than raising after exhaustion. -/
theorem C3_backoff_schedule (oracle : Nat → FetchOutcome) :
    (make_request_with_retry oracle).2
      = (executedAttempts oracle).flatMap (fun k => claimSleep k (oracle k))
    ∧ (executedAttempts oracle).length ≤ 3
    ∧ ((∀ k b, oracle k ≠ FetchOutcome.ok b) → (make_request_with_retry oracle).1 = none)
    ∧ (sync_make_request_with_retry oracle).2
      = (executedAttempts oracle).flatMap (fun k => genericSleep k (oracle k))
    ∧ ((∀ k b, oracle k ≠ FetchOutcome.ok b) → (sync_make_request_with_retry oracle).1 = none) := by
  refine ⟨?_, ?_, ?_, ?_, ?_⟩
  · rw [make_request_with_retry, executedAttempts, async_retry_sleeps, List.nil_append]
  · rw [executedAttempts]
    exact executedFrom_length oracle (List.range 3)
  · intro hfail
    exact async_retry_none oracle (List.range 3) [] (fun j _ => hfail j)
  · rw [sync_make_request_with_retry, executedAttempts, sync_retry_sleeps, List.nil_append]
  · intro hfail
    exact sync_retry_none oracle (List.range 3) [] (fun j _ => hfail j)

/-- C3, witness: persistent throttling exhausts all three attempts, returns
no data, and sleeps exactly the claim schedule. -/
theorem C3_backoff_schedule_witness :
    (make_request_with_retry (fun _ => FetchOutcome.httpStatus 429)).1 = none
    ∧ (make_request_with_retry (fun _ => FetchOutcome.httpStatus 429)).2
      = (executedAttempts (fun _ => FetchOutcome.httpStatus 429)).flatMap
          (fun k => claimSleep k (FetchOutcome.httpStatus 429)) :=
  ⟨(C3_backoff_schedule (fun _ => FetchOutcome.httpStatus 429)).2.2.1
      (fun _ _ h => FetchOutcome.noConfusion h),
   (C3_backoff_schedule (fun _ => FetchOutcome.httpStatus 429)).1⟩

/-- The merge loop's successes are exactly the dict results, in order. -/
theorem merge_batch_collected (results : List (Option CompanyData)) :
    ∀ ex, (merge_batch ex results).1 = results.filterMap id := by
  induction results with
  | nil => intro ex; simp [merge_batch]
  | cons r rest ih =>
    intro ex
    cases r with
    | none => simp [merge_batch, ih]
    | some cd => simp [merge_batch, ih]

/-- Marking preserves previously marked names. -/
theorem add_company_mem (ex : List String) (n x : String) (h : x ∈ ex) :
    x ∈ add_company_to_existing ex n := by
  rw [add_company_to_existing]
  split
  · exact List.mem_cons_of_mem _ h
  · exact h

/-- A non-blank name is marked by `add_company_to_existing`. -/
theorem add_company_self (ex : List String) (n : String) (h : pyStrip n ≠ "") :
    normName n ∈ add_company_to_existing ex n := by
  have hn : n ≠ "" := by
    intro he
    exact h (by rw [he]; rfl)
  rw [add_company_to_existing, if_pos ⟨hn, h⟩]
  exact List.mem_cons_self _ _

/-- The merge loop never removes names from the existing set. -/
theorem merge_batch_grows (results : List (Option CompanyData)) :
    ∀ ex, ∀ x ∈ ex, x ∈ (merge_batch ex results).2 := by
  induction results with
  | nil => intro ex x hx; simpa [merge_batch] using hx
  | cons r rest ih =>
    intro ex x hx
    cases r with
    | none => simpa [merge_batch] using ih ex x hx
    | some cd =>
      simp only [merge_batch]
      exact ih _ x (add_company_mem ex cd.company_name x hx)

/-- Every appended record with a non-blank name ends up marked in the
post-merge existing set. -/
theorem merge_batch_marks (results : List (Option CompanyData)) (cd : CompanyData)
    (hname : pyStrip cd.company_name ≠ "") :
    ∀ ex, some cd ∈ results → normName cd.company_name ∈ (merge_batch ex results).2 := by
  induction results with
  | nil => intro ex hmem; cases hmem
  | cons r rest ih =>
    intro ex hmem
    cases r with
    | none =>
      rcases List.mem_cons.mp hmem with h | h
      · cases h
      · simpa [merge_batch] using ih ex h
    | some cd' =>
      simp only [merge_batch]
      rcases List.mem_cons.mp hmem with h | h
      · have hcd : cd = cd' := by injection h
        subst hcd
        exact merge_batch_grows rest _ _ (add_company_self ex cd.company_name hname)
      · exact ih _ h

/-- In an association list keyed by its own elements, `find?` on a present key
returns that key's pair. -/
theorem find?_keyed (f : Nat → Option CompanyData) (l : List Nat) (i : Nat) :
    i ∈ l → (l.map (fun j => (j, f j))).find? (fun p => p.1 = i) = some (i, f i) := by
  induction l with
  | nil => intro h; cases h
  | cons j rest ih =>
    intro h
    rw [List.map_cons]
    by_cases hj : j = i
    · subst hj
      exact List.find?_cons_of_pos _ (by simp)
    · rw [List.find?_cons_of_neg _ (by simp [hj])]
      rcases List.mem_cons.mp h with h | h
      · exact absurd h.symm hj
      · exact ih h

/-- Reading every index back in order reproduces the list. -/
theorem range_map_getD (l : List (Option CompanyData)) :
    (List.range l.length).map (fun i => l.getD i none) = l := by
  induction l with
  | nil => rfl
  | cons a rest ih =>
    rw [List.length_cons, List.range_succ_eq_map, List.map_cons, List.map_map]
    show a :: (List.range rest.length).map
      ((fun i => (a :: rest).getD i none) ∘ Nat.succ) = a :: rest
    have hcomp : ((fun i => (a :: rest).getD i none) ∘ Nat.succ)
        = (fun i => rest.getD i none) := rfl
    rw [hcomp, ih]

/-- `asyncio.gather` hands results back in submission order, whatever the
completion order: under any completion permutation the gathered list is the
submission-order result list. -/
theorem gather_results_perm (tasks : List (Option CompanyData)) (ord : List Nat)
    (h : ord.Perm (List.range tasks.length)) : gather_results tasks ord = tasks := by
  rw [gather_results]
  have hpt : ∀ i ∈ List.range tasks.length,
      (((ord.map (fun j => (j, tasks.getD j none))).find?
          (fun p => p.1 = i)).map (fun p => p.2)).getD none
        = tasks.getD i none := by
    intro i hi
    rw [find?_keyed (fun j => tasks.getD j none) ord i (h.mem_iff.mpr hi)]
    rfl
  rw [List.map_congr_left hpt]
  exact range_map_getD tasks

/-- Whatever the completion order, every gathered entry is `none` or one of
the submitted tasks' results. -/
theorem gather_results_mem (tasks : List (Option CompanyData)) (ord : List Nat)
    (r : Option CompanyData) (h : r ∈ gather_results tasks ord) :
    r = none ∨ r ∈ tasks := by
  rw [gather_results] at h
  rcases List.mem_map.mp h with ⟨i, _, heq⟩
  rcases hfind : (ord.map (fun j => (j, tasks.getD j none))).find? (fun p => p.1 = i)
    with _ | p
  · rw [hfind] at heq
    exact Or.inl heq.symm
  · rw [hfind] at heq
    have hp := List.mem_of_find?_eq_some hfind
    rcases List.mem_map.mp hp with ⟨j, _, hpj⟩
    have hr : r = tasks.getD j none := by
      rw [← heq, ← hpj]
      rfl
    rw [List.getD_eq_getElem?_getD] at hr
    rcases hq : tasks[j]? with _ | a
    · rw [hq] at hr
      exact Or.inl hr
    · rw [hq] at hr
      subst hr
      exact Or.inr (List.get?_mem (by rw [List.get?_eq_getElem?]; exact hq))

/-- Every task result is a `get_company_details` run for some created
entity, against the pre-batch existing set. -/
theorem task_results_mem (fetch : String → Option DetailPage) (stopTask : Nat → Bool)
    (ex : List String) (page : Nat) (created : List CompanyInfo) (r : Option CompanyData)
    (h : r ∈ task_results fetch stopTask ex page created) :
    ∃ (i : Nat) (c : CompanyInfo),
      r = get_company_details (stopTask i) ex c.slug page c.stand (fetch c.slug) := by
  rw [task_results] at h
  rcases List.mem_map.mp h with ⟨p, _, heq⟩
  exact ⟨p.1, p.2, heq.symm⟩

/-- A failed fetch yields no record. -/
theorem get_company_details_none (stop : Bool) (ex : List String) (slug : String)
    (page : Nat) (stand : String) :
    get_company_details stop ex slug page stand none = none := by
  by_cases hstop : stop = true <;> simp [get_company_details, hstop]

/-- A record surviving the in-task duplicate check with a non-empty name was
not in the existing set the task checked against. -/
theorem get_company_details_not_known (stop : Bool) (ex : List String) (slug : String)
    (page : Nat) (stand : String) (d : DetailPage) (cd : CompanyData)
    (h : get_company_details stop ex slug page stand (some d) = some cd)
    (hne : cd.company_name ≠ "") : normName cd.company_name ∉ ex := by
  rw [get_company_details] at h
  by_cases hstop : stop = true
  · rw [if_pos hstop] at h; cases h
  · rw [if_neg hstop] at h
    by_cases hdup : (d.titleText.getD "") ≠ ""
        ∧ is_company_already_scraped ex (d.titleText.getD "") = true
    · rw [if_pos hdup] at h; cases h
    · rw [if_neg hdup] at h
      have hcd := Option.some_injective _ h
      subst hcd
      intro hmem
      exact hdup ⟨hne, by rw [is_company_already_scraped]
                          exact (contains_iff_mem _ _).mpr hmem⟩

/-- A detail fetch whose extracted name is non-empty and already marked is
discarded. -/
theorem get_company_details_known_none (stop : Bool) (ex : List String) (slug : String)
    (page : Nat) (stand : String) (d : DetailPage) (nm : String)
    (ht : d.titleText = some nm) (hne : nm ≠ "") (hmem : normName nm ∈ ex) :
    get_company_details stop ex slug page stand (some d) = none := by
  have hcond : (d.titleText.getD "") ≠ ""
      ∧ is_company_already_scraped ex (d.titleText.getD "") = true := by
    refine ⟨by rw [ht]; exact hne, ?_⟩
    rw [ht]
    show is_company_already_scraped ex nm = true
    rw [is_company_already_scraped]
    exact (contains_iff_mem _ _).mpr hmem
  by_cases hstop : stop = true
  · simp [get_company_details, hstop]
  · simp only [get_company_details, if_neg hstop]
    rw [if_pos hcond]

/-- C1, counterexample: two entities in the same batch whose detail pages
carry the same name are both kept — the in-task duplicate check runs against
the pre-batch existing set during the concurrent fetch, while marking happens
only in the merge loop after the whole batch resolves, so the later-captured
record with the same normalized name is appended rather than discarded. -/
theorem C1_counterexample :
    (dupBatchResult.1).map (fun cd => cd.company_name) = [("Acme"), ("Acme")]
    ∧ (dupBatchResult.1).length = 2
    ∧ ¬ ((dupBatchResult.1).map (fun cd => normName cd.company_name)).Nodup := by
  decide

/-- C1 (amended): for every batch, a completed detail fetch whose non-empty
extracted name is already in the existing set at batch start is discarded
(never appended); every appended record with a non-blank name has its
normalized name inserted into the set during the merge; the set only grows;
and any entity fetched in a later batch — which runs against the post-merge
set — whose non-empty name is already marked is discarded.  Within one batch,
records sharing a normalized name are all kept, because every task checks the
pre-batch set. -/
theorem C1_batch_dedup (fetch : String → Option DetailPage) (sC sT : Nat → Bool)
    (ord : List Nat) (ex proc : List String) (infos : List CompanyInfo) (page : Nat) :
    (∀ cd ∈ (process_companies_batch fetch sC sT ord ex proc infos page).1,
      cd.company_name ≠ "" → normName cd.company_name ∉ ex)
    ∧ (∀ cd ∈ (process_companies_batch fetch sC sT ord ex proc infos page).1,
      pyStrip cd.company_name ≠ "" →
        normName cd.company_name ∈ (process_companies_batch fetch sC sT ord ex proc infos page).2.1)
    ∧ (∀ x ∈ ex, x ∈ (process_companies_batch fetch sC sT ord ex proc infos page).2.1)
    ∧ (∀ (stop : Bool) (slug2 : String) (page2 : Nat) (stand2 : String)
        (d : DetailPage) (nm : String), d.titleText = some nm → nm ≠ "" →
        normName nm ∈ (process_companies_batch fetch sC sT ord ex proc infos page).2.1 →
        get_company_details stop (process_companies_batch fetch sC sT ord ex proc infos page).2.1
          slug2 page2 stand2 (some d) = none) := by
  have hsome : ∀ cd ∈ (process_companies_batch fetch sC sT ord ex proc infos page).1,
      some cd ∈ gather_results (task_results fetch sT ex page
        (created_tasks sC (companies_to_process proc infos))) ord := by
    intro cd hcd
    simp only [process_companies_batch] at hcd
    rw [merge_batch_collected] at hcd
    rcases List.mem_filterMap.mp hcd with ⟨r, hr, hid⟩
    exact hid ▸ hr
  refine ⟨?_, ?_, ?_, ?_⟩
  · intro cd hcd hne
    have h1 := hsome cd hcd
    rcases gather_results_mem _ _ _ h1 with h2 | h2
    · cases h2
    · rcases task_results_mem _ _ _ _ _ _ h2 with ⟨i, c, hc⟩
      rcases hfd : fetch c.slug with _ | d
      · rw [hfd, get_company_details_none] at hc
        cases hc
      · rw [hfd] at hc
        exact get_company_details_not_known _ _ _ _ _ _ _ hc.symm hne
  · intro cd hcd hname
    have h1 := hsome cd hcd
    simp only [process_companies_batch]
    exact merge_batch_marks _ cd hname ex h1
  · intro x hx
    simp only [process_companies_batch]
    exact merge_batch_grows _ ex x hx
  · intro stop slug2 page2 stand2 d nm ht hne hmem
    exact get_company_details_known_none stop _ slug2 page2 stand2 d nm ht hne hmem

/-- C1, witness: the existing set only grows across a concrete batch, and a
later fetch of a page titled `Acme` against the post-batch set is
discarded. -/
theorem C1_batch_dedup_witness :
    ("seed") ∈ (process_companies_batch (fun _ => some acmeDetail) noStop noStop
      [0, 1] [("seed")] [] dupBatchInfos 1).2.1
    ∧ get_company_details false (dupBatchResult.2.1) ("other-slug") 2 ("")
        (some acmeDetail) = none :=
  ⟨(C1_batch_dedup (fun _ => some acmeDetail) noStop noStop [0, 1] [("seed")] []
      dupBatchInfos 1).2.2.1 ("seed") (by decide),
   (C1_batch_dedup (fun _ => some acmeDetail) noStop noStop [0, 1] [] []
      dupBatchInfos 1).2.2.2 false ("other-slug") 2 ("") acmeDetail ("Acme")
      rfl (by decide) (by decide)⟩

/-- The created tasks are a subsequence of the filtered entities. -/
theorem enumFrom_takeWhile_sublist (q : Nat × CompanyInfo → Bool) (l : List CompanyInfo) :
    ∀ n, (((List.enumFrom n l).takeWhile q).map (fun p => p.2)).Sublist l := by
  induction l with
  | nil => intro n; simp [List.enumFrom]
  | cons c rest ih =>
    intro n
    show (((( n, c) :: List.enumFrom (n + 1) rest).takeWhile q).map (fun p => p.2)).Sublist
      (c :: rest)
    rw [List.takeWhile_cons]
    by_cases hq : q (n, c) = true
    · rw [if_pos hq, List.map_cons]
      exact List.Sublist.cons₂ c (ih (n + 1))
    · rw [if_neg hq, List.map_nil]
      exact List.nil_sublist _

/-- C10: under any completion order (any permutation of the task indices),
the batch's successes are gathered and appended in task-submission order —
the submission-order result list filtered to its successes — and the
submitted tasks themselves follow the listing page's entity order (a
subsequence of the listing). -/
theorem C10_intra_page_order (fetch : String → Option DetailPage) (sC sT : Nat → Bool)
    (ord : List Nat) (ex proc : List String) (infos : List CompanyInfo) (page : Nat)
    (h : ord.Perm (List.range (task_results fetch sT ex page
      (created_tasks sC (companies_to_process proc infos))).length)) :
    (process_companies_batch fetch sC sT ord ex proc infos page).1
      = (task_results fetch sT ex page
          (created_tasks sC (companies_to_process proc infos))).filterMap id
    ∧ (created_tasks sC (companies_to_process proc infos)).Sublist infos := by
  constructor
  · simp only [process_companies_batch]
    rw [gather_results_perm _ _ h, merge_batch_collected]
  · have h1 : (created_tasks sC (companies_to_process proc infos)).Sublist
        (companies_to_process proc infos) := by
      rw [created_tasks]
      exact enumFrom_takeWhile_sublist _ _ 0
    have h2 : (companies_to_process proc infos).Sublist infos := by
      rw [companies_to_process]
      exact List.filter_sublist infos
    exact h1.trans h2

/-- C10, witness: with the identity completion order on a concrete
two-entity batch the collected list is the submission-order success list. -/
theorem C10_intra_page_order_witness :
    dupBatchResult.1 = (task_results (fun _ => some acmeDetail) noStop [] 1
      (created_tasks noStop (companies_to_process [] dupBatchInfos))).filterMap id :=
  (C10_intra_page_order (fun _ => some acmeDetail) noStop noStop [0, 1] [] []
    dupBatchInfos 1 (by decide)).1

/-- Once the stop flag is observed at the top of the page loop, nothing
further happens: no listing fetch, no batch dispatch, no state change. -/
theorem scrape_loop_stopped (env : SchedEnv) (mp : Option Nat) (page : Nat)
    (h : env.stopTop page = true) :
    ∀ fuel pages st, scrape_loop env mp fuel page pages st = st := by
  intro fuel pages st
  cases fuel with
  | zero => rfl
  | succ n => simp [scrape_loop, h]

/-- C7: when the stop flag becomes set during page `p`'s batch (it was unset
at `p`'s loop-top and pre-batch checks, and every later check observes it),
the whole batch for page `p` still runs to completion and its successes are
merged into `collected` — the run's final collected list is the prior list
extended with exactly page `p`'s batch results — while no batch for any
subsequent page is dispatched: the dispatched-page trace ends at `p`.
The per-task stop observations `env.stopTask p` are arbitrary: tasks already
fetching complete and are merged; tasks that saw the flag before fetching
contribute nothing. -/
theorem C7_stop_drain (env : SchedEnv) (p pages fuel : Nat) (st : RunState)
    (htop : env.stopTop p = false) (hpre : env.stopPre p = false)
    (hlist : env.listing p ≠ [])
    (hlater : ∀ q, p < q → env.stopTop q = true) :
    (scrape_loop env none (fuel + 1) p pages st).companies_data
      = st.companies_data ++ (process_companies_batch (env.fetch p) (env.stopCreate p)
          (env.stopTask p) (env.order p) st.existing st.processed_slugs (env.listing p) p).1
    ∧ (scrape_loop env none (fuel + 1) p pages st).dispatched_pages
      = st.dispatched_pages ++ [p] := by
  rcases hl : env.listing p with _ | ⟨c, cs⟩
  · exact absurd hl hlist
  · by_cases hnext : env.hasNext p = false
    · simp [scrape_loop, htop, hpre, hl, hnext]
    · simp only [scrape_loop, htop, hpre, hl, hnext]
      rw [scrape_loop_stopped env none (p + 1) (hlater (p + 1) (by omega))]
      simp

/-- C7, witness: a concrete run whose stop flag rises after page 1 merges
page 1's batch and dispatches nothing further. -/
theorem C7_stop_drain_witness :
    (scrape_loop envEx none 1 1 0 st0).companies_data
      = st0.companies_data ++ (process_companies_batch (envEx.fetch 1) (envEx.stopCreate 1)
          (envEx.stopTask 1) (envEx.order 1) st0.existing st0.processed_slugs
          (envEx.listing 1) 1).1
    ∧ (scrape_loop envEx none 1 1 0 st0).dispatched_pages = st0.dispatched_pages ++ [1] :=
  C7_stop_drain envEx 1 0 0 st0 (by decide) (by decide) (by decide)
    (fun _ hq => decide_eq_true hq)

end DSEI
